import Mathlib

/-!
Shallow embedding of the memorizeit game core (colors.py, figure.py, game.py,
config.py) and proofs of the specification claims about it.

Conventions of the embedding:
  * Python floats on the values this program manipulates (7 / speed, screen
    fractions, the color catalog, sampling weights) are modelled as rationals;
    all values involved are exactly representable and no claim depends on
    floating-point rounding.  Catalog constants are written with Rat.mk' so
    they stay kernel-computable; bridging lemmas relate them to the usual
    numerals.
  * Python int(q) truncates toward zero; pyInt mirrors that.
  * Calls into the random module (choice, sample, choices, randint) are
    modelled by explicit draw parameters: choice over a list becomes indexing
    by draw mod length, randint(a, b) becomes a + draw mod (b - a + 1),
    sample(pop, k) becomes a parameter list constrained (in the theorems) to
    be a duplicate-free, length-k selection from the population, and
    choices(range(1,10), weights) is the cumulative-weight bisection that
    CPython performs, applied to a rational draw r standing for random().
  * Wall-clock time() values become rational now parameters.
-/

namespace Memorizeit

/-! ### colors.py -/

/-- RGB color on the 0-1 scale, as used by the catalog. -/
abbrev RGB := ℚ × ℚ × ℚ

/-- The rational 1/2, built without normalization so the kernel can compute
with it (0.5 in the source). -/
def half : ℚ := Rat.mk' 1 2 (by norm_num) (by norm_num)

/-- The rational 4/5, built without normalization so the kernel can compute
with it (0.8 in the source). -/
def fourFifths : ℚ := Rat.mk' 4 5 (by norm_num) (by norm_num)

/-- The kernel-computable catalog constants agree with the ordinary numerals. -/
theorem half_eq : half = 1 / 2 := by
  unfold half
  rw [Rat.mk'_eq_divInt]
  norm_num [Rat.divInt_eq_div]

theorem fourFifths_eq : fourFifths = 4 / 5 := by
  unfold fourFifths
  rw [Rat.mk'_eq_divInt]
  norm_num [Rat.divInt_eq_div]

/-- colors.COLORS: the 7-entry catalog, in source order.  Values are
(0.5 = half, 0.8 = fourFifths). -/
def COLORS : List (String × RGB) :=
  [("Green", (0, 1, 0)),
   ("Orange", (1, half, 0)),
   ("Red", (fourFifths, 0, 0)),
   ("Blue", (0, 0, 1)),
   ("Yellow", (1, 1, 0)),
   ("Violet", (1, 0, 1)),
   ("Grey", (half, half, half))]

/-- The catalog color names, in order (Python list(COLORS)). -/
def color_keys : List String := COLORS.map Prod.fst

/-- The catalog RGB values, in order. -/
def color_values : List RGB := COLORS.map Prod.snd

/-- Python dict lookup COLORS[name] (total, with a junk default that is
never reached for catalog names). -/
def colorOf (name : String) : RGB :=
  (((COLORS.filter (fun p => p.1 == name)).map Prod.snd).headD ((0 : ℚ), (0 : ℚ), (0 : ℚ)))

/-- Python int(q): truncation toward zero (Int.tdiv is T-division). -/
def pyInt (q : ℚ) : ℤ := Int.tdiv q.num (q.den : ℤ)

/-- colors.convert: [int(x * 255) for x in color]. -/
def convert (c : RGB) : List ℤ := [pyInt (c.1 * 255), pyInt (c.2.1 * 255), pyInt (c.2.2 * 255)]

/-- Helper for Python substring containment: does n occur at the head of h. -/
def pyStartsWith : List Char → List Char → Bool
  | [], _ => true
  | _ :: _, [] => false
  | a :: as, b :: bs => a == b && pyStartsWith as bs

/-- Helper for Python substring containment over character lists. -/
def pySubList (n : List Char) : List Char → Bool
  | [] => n.isEmpty
  | b :: t => pyStartsWith n (b :: t) || pySubList n t

/-- Python needle in hay on strings: substring containment.  The source
filters candidate names with self.active_color not in x, which is substring
containment, not equality, so we model it faithfully. -/
def pyIn (needle hay : String) : Bool := pySubList needle.data hay.data

/-- colors.Random: stores the name of the previously picked color. -/
structure Random where
  active_color : String
deriving DecidableEq

/-- colors.Random.__init__: the previous color starts as Grey. -/
def Random.init : Random := ⟨"Grey"⟩

/-- The filtered candidate list inside Random.get_color:
list(filter(lambda x: self.active_color not in x, COLORS)). -/
def candidates (s : Random) : List String :=
  color_keys.filter (fun x => !(pyIn s.active_color x))

/-- colors.Random.get_color: choice over the candidates (modelled by the
draw index mod the candidate count), update active_color, return the RGB
value of the picked name. -/
def Random.get_color (s : Random) (draw : ℕ) : Random × RGB :=
  let cs := candidates s
  let name := cs.getD (draw % cs.length) s.active_color
  (⟨name⟩, colorOf name)

/-- A sequence of get_color calls from a given state: the list of returned
RGB values, one per draw. -/
def runColors (s : Random) : List ℕ → List RGB
  | [] => []
  | i :: is => (Random.get_color s i).2 :: runColors (Random.get_color s i).1 is

/-- Result type of colors.pick: either a list of RGB triples (Easy) or the
boolean sentinel (True for Medium, False for Hard). -/
inductive PickResult where
  | colorList (cs : List RGB)
  | sentinel (b : Bool)
deriving DecidableEq

/-- colors.pick: sampled models the result of sample(COLORS.keys(), amount)
(the theorems constrain it to a duplicate-free selection from the catalog). -/
def pick (setting : String) (sampled : List String) : PickResult :=
  if setting == "Easy" then .colorList (sampled.map colorOf)
  else .sentinel (setting == "Medium")

/-! ### figure.py -/

/-- The weight list in Wave2D.get_amount:
[0.03, 0.1, 0.2, 0.2, 0.2, 0.15, 0.1, 0.01, 0.01]. -/
def get_amount_weights : List ℚ :=
  [3/100, 1/10, 1/5, 1/5, 1/5, 3/20, 1/10, 1/100, 1/100]

/-- The cumulative weights CPython's choices builds with accumulate. -/
def cum_weights : List ℚ := (get_amount_weights.scanl (· + ·) 0).tail

/-- Wave2D.get_amount: choices(range(1, 10), weights)[0].  CPython picks
bisect_right(cum_weights, random() * total, 0, len - 1) and indexes
range(1, 10) with it; on a sorted cumulative list, that insertion point is the
number of entries among the first 8 that are ≤ the scaled draw.  The rational
r models random(). -/
def get_amount (r : ℚ) : ℕ :=
  1 + ((cum_weights.take 8).filter (fun c => c ≤ r * cum_weights.getLastD 0)).length

/-- Wave2D.get_mid_points: screen split into a 3x3 net; midpoint of each
field, x outer loop and y inner, each coordinate truncated by int(). -/
def get_mid_points (resolution : ℚ × ℚ) : List (ℤ × ℤ) :=
  [resolution.1 / 6, resolution.1 / 2, resolution.1 - resolution.1 / 6].flatMap
    (fun x => [resolution.2 / 6, resolution.2 / 2, resolution.2 - resolution.2 / 6].map
      (fun y => (pyInt x, pyInt y)))

/-- Wave2D.get_figure_size: int(min(w / 3, h / 3) / 4). -/
def get_figure_size (resolution : ℚ × ℚ) : ℤ :=
  pyInt (min (resolution.1 / 3) (resolution.2 / 3) / 4)

/-- Python randint(lo, hi): inclusive uniform draw, modelled by
lo + draw mod (hi - lo + 1). -/
def randint (lo hi draw : ℕ) : ℕ := lo + draw % (hi + 1 - lo)

/-- The wave-level color argument a Wave receives in 2D mode: a fixed RGB
tuple, a pygame.Surface photo (opaque here), or the False sentinel of the
Hard difficulty meaning one random color per instance. -/
inductive ColorSpec where
  | rgb (c : RGB)
  | image
  | hard
deriving DecidableEq

/-- The color stored on a built 2D figure: a converted 0-255 triple or the
photo surface. -/
inductive InstanceColor where
  | rgb255 (c : List ℤ)
  | image
deriving DecidableEq

/-- The color resolution inside Wave2D.fill for one instance:
figure_color = color if color else colors.Random().get_color(), followed by
colors.convert unless the wave color is a pygame.Surface.  A fresh
colors.Random() is constructed per instance on the False path. -/
def resolve_fill_color (color : ColorSpec) (draw : ℕ) : InstanceColor :=
  match color with
  | .rgb c => .rgb255 (convert c)
  | .image => .image
  | .hard => .rgb255 (convert (Random.get_color Random.init draw).2)

/-- One element of Wave2D.figures, as built by Figure2D.__init__ (the screen
surface is outside the model; the point list is determined by figure, color,
point and size, so those four fields carry the state). -/
structure Figure2D where
  figure : String
  color : InstanceColor
  point : ℤ × ℤ
  size : ℤ
deriving DecidableEq

/-- Wave2D.fill: iterate over sample(get_mid_points(resolution), get_amount())
(the sampledPoints parameter models that sample; theorems constrain it),
resolving a color per instance.  colorDraws i models the random choice made
for instance i on the Hard path. -/
def Wave2D_fill (figName : String) (color : ColorSpec) (resolution : ℚ × ℚ)
    (sampledPoints : List (ℤ × ℤ)) (colorDraws : ℕ → ℕ) : List Figure2D :=
  sampledPoints.mapIdx (fun i point =>
    { figure := figName, color := resolve_fill_color color (colorDraws i),
      point := point, size := get_figure_size resolution })

/-- The color resolution inside Wave3D.fill for one instance:
figure_color = color if color else colors.Random().get_color(); none models
the False sentinel of the Hard path. -/
def resolve_fill_color3D (color : Option RGB) (draw : ℕ) : RGB :=
  match color with
  | some c => c
  | none => (Random.get_color Random.init draw).2

/-- One element of Wave3D.figures: a 3D figure in normal (outline) mode with
its color and the camera Z position it was spawned for (the random x/y/z
shift and the vertex tables are static data outside the claims). -/
structure Figure3D where
  color : RGB
  positionZ : ℤ
deriving DecidableEq

/-- Wave3D.fill: for _ in range(randint(2, 6)) append a figure, resolving a
color per instance. -/
def Wave3D_fill (color : Option RGB) (positionZ : ℤ) (amountDraw : ℕ)
    (colorDraws : ℕ → ℕ) : List Figure3D :=
  (List.range (randint 2 6 amountDraw)).map (fun i =>
    { color := resolve_fill_color3D color (colorDraws i), positionZ := positionZ })

/-! ### game.py -/

/-- Game.timer: the dictionary built by Game.create_timer. -/
structure Timer where
  start : ℚ
  total : ℚ
  wave : ℚ
  last : ℚ
deriving DecidableEq

/-- Game.create_timer: total = settings.time, wave base = 7 / speed, per-wave
duration wave * 2, last-spawn cutoff total - wave base. -/
def create_timer (now time_setting speed : ℚ) : Timer :=
  let total := time_setting
  let wave := 7 / speed
  { start := now, total := total, wave := wave * 2, last := total - wave }

/-- Game.has_time_left: timer total > time() - timer start. -/
def has_time_left (tm : Timer) (now : ℚ) : Bool :=
  decide (tm.total > now - tm.start)

/-- Game.is_wave_finished: True only when the mode-specific condition holds
and timer last > time() - timer start. -/
def is_wave_finished (tm : Timer) (now : ℚ) (condition : Bool) : Bool :=
  if condition then decide (tm.last > now - tm.start) else false

/-- config.Handler loops the game tick while its condition (has_time_left)
returns True; the session ends at the first tick where it is False. -/
def Handler_continues (tm : Timer) (now : ℚ) : Bool := has_time_left tm now

/-- Game.__init__: counter = {x: 0 for x in list(elements)} — every selected
figure type starts at 0. -/
def counter_init : String → ℕ := fun _ => 0

/-- The counter update in Game.create_wave:
counter[figure] = counter[figure] + len(wave). -/
def create_wave_update (counter : String → ℕ) (figure : String) (waveLen : ℕ) :
    String → ℕ :=
  fun x => if x = figure then counter figure + waveLen else counter x

/-- A session's spawn history folded through the counter update: each event is
the picked figure type with the spawned wave's length. -/
def run_spawns (counter : String → ℕ) (events : List (String × ℕ)) : String → ℕ :=
  events.foldl (fun c e => create_wave_update c e.1 e.2) counter

/-- The mutable state Static.run_game touches: the timer (with the rolling
interval added by Static.prepare_environment) and the identity of the current
wave object (a token incremented whenever spawn_new_wave replaces it). -/
structure StaticState where
  timer : Timer
  interval : ℚ
  wave : ℕ
deriving DecidableEq

/-- Static.run_game, one tick at wall-clock time now: if
is_wave_finished(time() > interval + timer wave) then advance the interval and
replace the wave, else redraw the current wave (state unchanged). -/
def Static_run_game (s : StaticState) (now : ℚ) : StaticState :=
  if is_wave_finished s.timer now (decide (now > s.interval + s.timer.wave)) then
    { s with interval := s.interval + s.timer.wave, wave := s.wave + 1 }
  else s

/-- The mutable state Dynamic.run_game touches: timer, the camera Z position
of the last spawn, and the current wave identity. -/
structure DynamicState where
  timer : Timer
  spawned_at : ℤ
  wave : ℕ
deriving DecidableEq

/-- Dynamic.run_game, one tick at time now with camera position cameraZ: if
is_wave_finished(cameraZ < spawned_at - 100) then replace the wave and record
the new anchor, else redraw the current wave. -/
def Dynamic_run_game (s : DynamicState) (now : ℚ) (cameraZ : ℤ) : DynamicState :=
  if is_wave_finished s.timer now (decide (cameraZ < s.spawned_at - 100)) then
    { s with spawned_at := cameraZ, wave := s.wave + 1 }
  else s

/-! ### config.py (validated settings domains) -/

/-- config.Config.get_values, time entry: range(5, 61, 5). -/
def allowed_times : List ℚ := [5, 10, 15, 20, 25, 30, 35, 40, 45, 50, 55, 60]

/-- config.Config.get_values, speed entry: (1, 2, 3, 4). -/
def allowed_speeds : List ℚ := [1, 2, 3, 4]

/-! ### Basic catalog facts -/

/-- On catalog names, Python substring containment coincides with equality:
no catalog name is a proper substring of another. -/
theorem pyIn_eq_beq : ∀ a ∈ color_keys, ∀ x ∈ color_keys, pyIn a x = (a == x) := by decide

/-- For a previous color that is a catalog name, the candidate list has
exactly the 6 other names. -/
theorem candidates_spec :
    ∀ a ∈ color_keys, (candidates ⟨a⟩).length = 6 ∧
      ∀ x ∈ candidates ⟨a⟩, x ∈ color_keys ∧ x ≠ a := by decide

/-- Catalog lookup lands in the catalog values. -/
theorem colorOf_mem_values : ∀ a ∈ color_keys, colorOf a ∈ color_values := by decide

/-- Catalog lookup is injective on catalog names (all 7 values differ). -/
theorem colorOf_inj :
    ∀ a ∈ color_keys, ∀ b ∈ color_keys, colorOf a = colorOf b → a = b := by decide

theorem getD_mod_mem {α : Type} (l : List α) (d : α) (i : ℕ) (h : l ≠ []) :
    l.getD (i % l.length) d ∈ l := by
  have hlen : 0 < l.length := List.length_pos.mpr h
  have hlt : i % l.length < l.length := Nat.mod_lt _ hlen
  rw [List.getD_eq_getElem l d hlt]
  exact List.getElem_mem hlt

/-- One step of Random.get_color from a catalog-named state: the new state is
again catalog-named, differs from the previous name, and the returned value is
the lookup of the new name. -/
theorem get_color_step (s : Random) (hs : s.active_color ∈ color_keys) (i : ℕ) :
    (Random.get_color s i).1.active_color ∈ color_keys ∧
    (Random.get_color s i).1.active_color ≠ s.active_color ∧
    (Random.get_color s i).2 = colorOf (Random.get_color s i).1.active_color := by
  obtain ⟨hlen, hmem⟩ := candidates_spec s.active_color hs
  have hne : candidates s ≠ [] := by
    intro hnil
    rw [show (⟨s.active_color⟩ : Random) = s from rfl] at hlen
    rw [hnil] at hlen
    simp at hlen
  have hget := getD_mod_mem (candidates s) s.active_color i hne
  have hx := hmem _ hget
  exact ⟨hx.1, hx.2, rfl⟩

/-! ### Timing helper lemmas -/

theorem is_wave_finished_false_of_cutoff (tm : Timer) (now : ℚ) (c : Bool)
    (h : tm.last ≤ now - tm.start) : is_wave_finished tm now c = false := by
  cases c with
  | false => rfl
  | true => simp [is_wave_finished, show ¬(tm.last > now - tm.start) from not_lt.mpr h]

theorem Static_run_game_fixed (times : List ℚ) :
    ∀ st : StaticState, (∀ x ∈ times, st.timer.last ≤ x - st.timer.start) →
      times.foldl Static_run_game st = st := by
  induction times with
  | nil => intro st _; rfl
  | cons t ts ih =>
    intro st h
    have h1 : Static_run_game st t = st := by
      simp [Static_run_game,
        is_wave_finished_false_of_cutoff st.timer t _ (h t (by simp))]
    rw [List.foldl_cons, h1]
    exact ih st (fun x hx => h x (by simp [hx]))

theorem Dynamic_run_game_fixed (steps : List (ℚ × ℤ)) :
    ∀ ds : DynamicState, (∀ p ∈ steps, ds.timer.last ≤ p.1 - ds.timer.start) →
      steps.foldl (fun s p => Dynamic_run_game s p.1 p.2) ds = ds := by
  induction steps with
  | nil => intro ds _; rfl
  | cons p ps ih =>
    intro ds h
    have h1 : Dynamic_run_game ds p.1 p.2 = ds := by
      simp [Dynamic_run_game,
        is_wave_finished_false_of_cutoff ds.timer p.1 _ (h p (by simp))]
    rw [List.foldl_cons, h1]
    exact ih ds (fun x hx => h x (by simp [hx]))

theorem run_spawns_eq (f : String) :
    ∀ (events : List (String × ℕ)) (c : String → ℕ),
      run_spawns c events f =
        c f + ((events.filter (fun e => e.1 == f)).map Prod.snd).sum := by
  intro events
  induction events with
  | nil => intro c; simp [run_spawns]
  | cons e es ih =>
    intro c
    have step : run_spawns c (e :: es) = run_spawns (create_wave_update c e.1 e.2) es := rfl
    rw [step, ih]
    by_cases hef : e.1 = f
    · subst hef
      simp only [create_wave_update, if_pos rfl, List.filter_cons, beq_self_eq_true,
        if_pos trivial, List.map_cons, List.sum_cons]
      omega
    · have hfe : ¬(f = e.1) := fun hh => hef hh.symm
      simp only [create_wave_update, if_neg hfe, List.filter_cons,
        beq_iff_eq, if_neg hef, List.map_cons, List.sum_cons]

/-! ### Claims C1 - C5 -/

/-- C1, counterexample: with time 30 and speed 2 the per-wave duration is 7,
yet at elapsed 25 (remaining budget 5 < 7) is_wave_finished still allows a
replacement, and Static.run_game performs one: a wave is spawned with less
than one full per-wave duration of budget remaining. -/
theorem C1_counterexample :
    is_wave_finished (create_timer 0 30 2) 25 true = true ∧
    (create_timer 0 30 2).total - (25 - (create_timer 0 30 2).start) <
      (create_timer 0 30 2).wave ∧
    (Static_run_game ⟨create_timer 0 30 2, 0, 0⟩ 25).wave = 1 := by
  refine ⟨?_, ?_, ?_⟩ <;> norm_num [is_wave_finished, create_timer, Static_run_game]

/-- C1, amended: the cutoff in create_timer is total - 7/speed, half a
per-wave duration, so every wave replacement happens with remaining budget
strictly greater than 7/speed (not a full per-wave duration (7/speed)*2). -/
theorem C1_last_spawn_budget (start t s now : ℚ) (c : Bool)
    (h : is_wave_finished (create_timer start t s) now c = true) :
    7 / s < t - (now - start) := by
  cases c with
  | false => simp [is_wave_finished] at h
  | true =>
    simp only [is_wave_finished, if_pos, decide_eq_true_eq, create_timer] at h
    linarith

theorem C1_last_spawn_budget_witness : (7 : ℚ) / 2 < 30 - (0 - 0) :=
  C1_last_spawn_budget 0 30 2 0 true (by norm_num [is_wave_finished, create_timer])

/-- C2: once elapsed time reaches the last-spawn cutoff total - 7/speed,
is_wave_finished returns False at every tick whatever the mode condition, so
Static.run_game and Dynamic.run_game leave the current wave object unchanged
for the remainder of the session. -/
theorem C2_last_wave_stability :
    (∀ (start t s now : ℚ) (c : Bool),
        (create_timer start t s).last ≤ now - start →
        is_wave_finished (create_timer start t s) now c = false) ∧
    (∀ (st : StaticState) (times : List ℚ),
        (∀ x ∈ times, st.timer.last ≤ x - st.timer.start) →
        (times.foldl Static_run_game st).wave = st.wave) ∧
    (∀ (ds : DynamicState) (steps : List (ℚ × ℤ)),
        (∀ p ∈ steps, ds.timer.last ≤ p.1 - ds.timer.start) →
        (steps.foldl (fun s p => Dynamic_run_game s p.1 p.2) ds).wave = ds.wave) := by
  refine ⟨?_, ?_, ?_⟩
  · intro start t s now c h
    exact is_wave_finished_false_of_cutoff _ _ _ (by simpa [create_timer] using h)
  · intro st times h
    rw [Static_run_game_fixed times st h]
  · intro ds steps h
    rw [Dynamic_run_game_fixed steps ds h]

theorem C2_last_wave_stability_witness :
    (([27, 29] : List ℚ).foldl Static_run_game ⟨create_timer 0 30 2, 0, 0⟩).wave
      = (⟨create_timer 0 30 2, 0, 0⟩ : StaticState).wave :=
  C2_last_wave_stability.2.1 ⟨create_timer 0 30 2, 0, 0⟩ [27, 29] (by
    intro x hx
    fin_cases hx <;> norm_num [create_timer])

/-- C3: for validated settings the timer is built with total budget t,
per-wave duration (7/s)*2 and last-spawn cutoff t - 7/s; for t = 30, s = 2
the per-wave duration is 7 and the cutoff is 26.5 = 53/2. -/
theorem C3_timer_initialization (now t s : ℚ)
    (_ht : t ∈ allowed_times) (_hs : s ∈ allowed_speeds) :
    ((create_timer now t s).total = t ∧
     (create_timer now t s).wave = 7 / s * 2 ∧
     (create_timer now t s).last = t - 7 / s) ∧
    (create_timer now 30 2).wave = 7 ∧ (create_timer now 30 2).last = 53 / 2 := by
  refine ⟨⟨rfl, rfl, rfl⟩, ?_, ?_⟩ <;> norm_num [create_timer]

theorem C3_timer_initialization_witness :
    ((create_timer 0 30 2).total = 30 ∧
     (create_timer 0 30 2).wave = 7 / 2 * 2 ∧
     (create_timer 0 30 2).last = 30 - 7 / 2) ∧
    (create_timer 0 30 2).wave = 7 ∧ (create_timer 0 30 2).last = 53 / 2 :=
  C3_timer_initialization 0 30 2
    (by simp only [allowed_times, List.mem_cons, List.not_mem_nil, or_false]; norm_num)
    (by simp only [allowed_speeds, List.mem_cons, List.not_mem_nil, or_false]; norm_num)

/-- C5: has_time_left is True exactly when elapsed < total, so the Handler
loop (whose continue-condition it is) stops — the session enters its terminal
Ending state — exactly when elapsed ≥ total, independent of any wave state. -/
theorem C5_session_termination (tm : Timer) (now : ℚ) :
    (has_time_left tm now = true ↔ now - tm.start < tm.total) ∧
    (Handler_continues tm now = false ↔ tm.total ≤ now - tm.start) := by
  constructor
  · simp [has_time_left]
  · simp [Handler_continues, has_time_left, not_lt]

/-- C4: the occurrence counter starts at 0 for every type, after any spawn
history equals the sum of the spawned wave lengths for that type, is
non-decreasing as the history grows, and one spawn changes no other type's
entry. -/
theorem C4_counter_invariants :
    (∀ f, counter_init f = 0) ∧
    (∀ (events : List (String × ℕ)) (f : String),
        run_spawns counter_init events f =
          ((events.filter (fun e => e.1 == f)).map Prod.snd).sum) ∧
    (∀ (events more : List (String × ℕ)) (f : String),
        run_spawns counter_init events f ≤ run_spawns counter_init (events ++ more) f) ∧
    (∀ (c : String → ℕ) (figure : String) (n : ℕ) (g : String),
        g ≠ figure → create_wave_update c figure n g = c g) := by
  refine ⟨fun _ => rfl, ?_, ?_, ?_⟩
  · intro events f
    rw [run_spawns_eq f events counter_init]
    simp [counter_init]
  · intro events more f
    rw [run_spawns_eq f events counter_init, run_spawns_eq f (events ++ more) counter_init]
    simp only [List.filter_append, List.map_append, List.sum_append]
    omega
  · intro c figure n g hg
    simp [create_wave_update, hg]

theorem C4_counter_invariants_witness :
    create_wave_update counter_init "square" 5 "triangle" = counter_init "triangle" :=
  C4_counter_invariants.2.2.2 counter_init "square" 5 "triangle" (by decide)

/-! ### Color selector lemmas and claims C6, C9, C10 -/

theorem runColors_spec (draws : List ℕ) :
    ∀ s : Random, s.active_color ∈ color_keys →
      (∀ c ∈ runColors s draws, c ∈ color_values) ∧
      List.Chain' (fun a b => a ≠ b) (colorOf s.active_color :: runColors s draws) := by
  induction draws with
  | nil =>
    intro s _
    exact ⟨by simp [runColors], List.chain'_singleton _⟩
  | cons i is ih =>
    intro s hs
    obtain ⟨h1, h2, h3⟩ := get_color_step s hs i
    obtain ⟨ihm, ihc⟩ := ih (Random.get_color s i).1 h1
    have hrun : runColors s (i :: is) =
        (Random.get_color s i).2 :: runColors (Random.get_color s i).1 is := rfl
    constructor
    · intro c hc
      rw [hrun] at hc
      rcases List.mem_cons.mp hc with hceq | hmem
      · rw [hceq, h3]
        exact colorOf_mem_values _ h1
      · exact ihm c hmem
    · rw [hrun, List.chain'_cons]
      refine ⟨?_, ?_⟩
      · rw [h3]
        intro heq
        exact h2 (colorOf_inj _ hs _ h1 heq).symm
      · rw [h3]
        exact ihc

/-- C6: every value returned along any sequence of get_color calls on a
single colors.Random instance (previous color initially Grey) is the RGB
triple of one of the 7 catalog colors, and no two consecutive returned values
are equal. -/
theorem C6_no_repeat_colors (draws : List ℕ) :
    (∀ c ∈ runColors Random.init draws, c ∈ color_values) ∧
    List.Chain' (fun a b => a ≠ b) (runColors Random.init draws) := by
  obtain ⟨h1, h2⟩ := runColors_spec draws Random.init (by decide)
  exact ⟨h1, h2.tail⟩

/-- C9: pick with the Easy setting maps any duplicate-free k-element sample
of catalog names (k ≤ 7) to exactly k pairwise-distinct catalog RGB
triples. -/
theorem C9_easy_distinct (k : ℕ) (sampled : List String)
    (hnd : sampled.Nodup) (hsub : ∀ x ∈ sampled, x ∈ color_keys)
    (hlen : sampled.length = k) (_hk : k ≤ 7) :
    ∃ cs, pick "Easy" sampled = PickResult.colorList cs ∧
      cs.length = k ∧ cs.Nodup ∧ ∀ c ∈ cs, c ∈ color_values := by
  refine ⟨sampled.map colorOf, rfl, by simpa using hlen, ?_, ?_⟩
  · exact List.Nodup.map_on
      (fun x hx y hy hxy => colorOf_inj x (hsub x hx) y (hsub y hy) hxy) hnd
  · intro c hc
    obtain ⟨x, hx, hxc⟩ := List.mem_map.mp hc
    rw [← hxc]
    exact colorOf_mem_values x (hsub x hx)

theorem C9_easy_distinct_witness :
    ∃ cs, pick "Easy" ["Green", "Red", "Blue"] = PickResult.colorList cs ∧
      cs.length = 3 ∧ cs.Nodup ∧ ∀ c ∈ cs, c ∈ color_values :=
  C9_easy_distinct 3 ["Green", "Red", "Blue"] (by decide) (by decide) (by decide)
    (by decide)

/-- The 6 non-Grey catalog values. -/
def non_grey_values : List RGB :=
  [(0, 1, 0), (1, half, 0), (fourFifths, 0, 0), (0, 0, 1), (1, 1, 0), (1, 0, 1)]

theorem get_color_fresh (d : ℕ) :
    (Random.get_color Random.init d).2 ∈ non_grey_values ∧
    (Random.get_color Random.init d).2 ≠ (half, half, half) := by
  have key : ∀ j, j < 6 →
      colorOf ((candidates Random.init).getD j Random.init.active_color) ∈ non_grey_values ∧
      colorOf ((candidates Random.init).getD j Random.init.active_color) ≠
        (half, half, half) := by decide
  have hlen : (candidates Random.init).length = 6 := by decide
  have hval : (Random.get_color Random.init d).2 =
      colorOf ((candidates Random.init).getD (d % (candidates Random.init).length)
        Random.init.active_color) := rfl
  rw [hval, hlen]
  exact key (d % 6) (Nat.mod_lt d (by norm_num))

/-- C10: on the Hard path (wave color sentinel False) every instance color in
Wave2D.fill and Wave3D.fill comes from a freshly constructed colors.Random
whose previous color is Grey, hence is one of the 6 non-Grey catalog values
and Grey (0.5, 0.5, 0.5) is never assigned through this path. -/
theorem C10_hard_path_no_grey :
    half = 1 / 2 ∧
    (∀ d : ℕ, (Random.get_color Random.init d).2 ∈ non_grey_values ∧
       (Random.get_color Random.init d).2 ≠ (half, half, half)) ∧
    (∀ (figName : String) (res : ℚ × ℚ) (pts : List (ℤ × ℤ)) (draws : ℕ → ℕ),
       ∀ inst ∈ Wave2D_fill figName ColorSpec.hard res pts draws,
         ∃ c, c ∈ non_grey_values ∧ c ≠ (half, half, half) ∧
           inst.color = InstanceColor.rgb255 (convert c)) ∧
    (∀ (posZ : ℤ) (ad : ℕ) (draws : ℕ → ℕ),
       ∀ inst ∈ Wave3D_fill none posZ ad draws,
         inst.color ∈ non_grey_values ∧ inst.color ≠ (half, half, half)) := by
  refine ⟨half_eq, get_color_fresh, ?_, ?_⟩
  · intro figName res pts draws inst hinst
    rw [Wave2D_fill, List.mapIdx_eq_ofFn] at hinst
    obtain ⟨i, hfi⟩ := (List.mem_ofFn _ _).mp hinst
    refine ⟨(Random.get_color Random.init (draws i)).2,
      (get_color_fresh (draws i)).1, (get_color_fresh (draws i)).2, ?_⟩
    rw [← hfi]
    rfl
  · intro posZ ad draws inst hinst
    rw [Wave3D_fill] at hinst
    obtain ⟨i, _, hfi⟩ := List.mem_map.mp hinst
    have hc : inst.color = (Random.get_color Random.init (draws i)).2 := by
      rw [← hfi]
      rfl
    rw [hc]
    exact get_color_fresh (draws i)

theorem C10_hard_path_no_grey_witness :
    (⟨(0, 1, 0), 0⟩ : Figure3D) ∈ Wave3D_fill none 0 0 (fun _ => 0) ∧
    (((0 : ℚ), (1 : ℚ), (0 : ℚ)) ∈ non_grey_values ∧
      ((0 : ℚ), (1 : ℚ), (0 : ℚ)) ≠ (half, half, half)) := by
  have hmem : (⟨(0, 1, 0), 0⟩ : Figure3D) ∈ Wave3D_fill none 0 0 (fun _ => 0) := by
    decide
  exact ⟨hmem, C10_hard_path_no_grey.2.2.2 0 0 (fun _ => 0) ⟨(0, 1, 0), 0⟩ hmem⟩

/-! ### Wave size and grid claims C7, C8 -/

theorem get_amount_bounds (r : ℚ) : 1 ≤ get_amount r ∧ get_amount r ≤ 9 := by
  have hfl : ((cum_weights.take 8).filter
      (fun c => c ≤ r * cum_weights.getLastD 0)).length ≤ (cum_weights.take 8).length :=
    List.length_filter_le _ _
  have h8 : (cum_weights.take 8).length = 8 := rfl
  unfold get_amount
  omega

theorem randint_2_6_bounds (ad : ℕ) : 2 ≤ randint 2 6 ad ∧ randint 2 6 ad ≤ 6 := by
  have hm : ad % (6 + 1 - 2) < 5 := Nat.mod_lt ad (by norm_num)
  unfold randint
  omega

/-- C7: get_amount always lands in {1..9} and is driven by the specified
weight list; a 3D wave always has between 2 and 6 instances (randint 2 6);
a 2D wave has one instance per sampled point, i.e. get_amount many, hence
between 1 and 9. -/
theorem C7_wave_size_bounds :
    (∀ r : ℚ, 1 ≤ get_amount r ∧ get_amount r ≤ 9) ∧
    get_amount_weights = [3/100, 1/10, 1/5, 1/5, 1/5, 3/20, 1/10, 1/100, 1/100] ∧
    (∀ ad : ℕ, 2 ≤ randint 2 6 ad ∧ randint 2 6 ad ≤ 6) ∧
    (∀ (color : Option RGB) (posZ : ℤ) (ad : ℕ) (draws : ℕ → ℕ),
        2 ≤ (Wave3D_fill color posZ ad draws).length ∧
        (Wave3D_fill color posZ ad draws).length ≤ 6) ∧
    (∀ (figName : String) (color : ColorSpec) (res : ℚ × ℚ)
        (pts : List (ℤ × ℤ)) (draws : ℕ → ℕ) (r : ℚ),
        pts.length = get_amount r →
        1 ≤ (Wave2D_fill figName color res pts draws).length ∧
        (Wave2D_fill figName color res pts draws).length ≤ 9) := by
  refine ⟨get_amount_bounds, rfl, randint_2_6_bounds, ?_, ?_⟩
  · intro color posZ ad draws
    have hl : (Wave3D_fill color posZ ad draws).length = randint 2 6 ad := by
      simp [Wave3D_fill]
    rw [hl]
    exact randint_2_6_bounds ad
  · intro figName color res pts draws r hlen
    have hl : (Wave2D_fill figName color res pts draws).length = pts.length := by
      simp [Wave2D_fill]
    rw [hl, hlen]
    exact get_amount_bounds r

theorem C7_wave_size_bounds_witness :
    1 ≤ (Wave2D_fill "square" ColorSpec.hard (1200, 900) [(0, 0)] (fun _ => 0)).length ∧
    (Wave2D_fill "square" ColorSpec.hard (1200, 900) [(0, 0)] (fun _ => 0)).length ≤ 9 :=
  C7_wave_size_bounds.2.2.2.2 "square" ColorSpec.hard (1200, 900) [(0, 0)]
    (fun _ => 0) 0
    (by norm_num [get_amount, cum_weights, get_amount_weights, List.scanl, List.filter])

/-- C8: the 2D grid midpoints are exactly the nine truncated combinations of
x in {w/6, w/2, w - w/6} with y in {h/6, h/2, h - h/6} (x outer, y inner);
for resolution (1200, 900) they are the nine listed points and the figure
size int(min(w/3, h/3)/4) is 75. -/
theorem C8_grid_midpoints :
    (∀ w h : ℚ, get_mid_points (w, h) =
      [(pyInt (w/6), pyInt (h/6)), (pyInt (w/6), pyInt (h/2)),
       (pyInt (w/6), pyInt (h - h/6)),
       (pyInt (w/2), pyInt (h/6)), (pyInt (w/2), pyInt (h/2)),
       (pyInt (w/2), pyInt (h - h/6)),
       (pyInt (w - w/6), pyInt (h/6)), (pyInt (w - w/6), pyInt (h/2)),
       (pyInt (w - w/6), pyInt (h - h/6))]) ∧
    get_mid_points (1200, 900) =
      [(200, 150), (200, 450), (200, 750), (600, 150), (600, 450), (600, 750),
       (1000, 150), (1000, 450), (1000, 750)] ∧
    get_figure_size (1200, 900) = 75 := by
  refine ⟨fun w h => rfl, ?_, ?_⟩
  · have e1 : (1200 : ℚ) / 6 = 200 := by norm_num
    have e2 : (1200 : ℚ) / 2 = 600 := by norm_num
    have g1 : (900 : ℚ) / 6 = 150 := by norm_num
    have g2 : (900 : ℚ) / 2 = 450 := by norm_num
    show ([(1200 : ℚ) / 6, (1200 : ℚ) / 2, (1200 : ℚ) - (1200 : ℚ) / 6].flatMap
      (fun x => [(900 : ℚ) / 6, (900 : ℚ) / 2, (900 : ℚ) - (900 : ℚ) / 6].map
        (fun y => (pyInt x, pyInt y)))) = _
    rw [e1, e2, g1, g2]
    have e3 : (1200 : ℚ) - 200 = 1000 := by norm_num
    have g3 : (900 : ℚ) - 150 = 750 := by norm_num
    rw [e3, g3]
    decide
  · have h1 : min ((1200 : ℚ) / 3) ((900 : ℚ) / 3) / 4 = 75 := by norm_num
    show pyInt (min ((1200 : ℚ) / 3) ((900 : ℚ) / 3) / 4) = 75
    rw [h1]
    decide

end Memorizeit
